import Mathlib

/-!
Verification development for the Redes reliable-transport application.

The Python sources under `src/` are shallowly embedded below:

* `src/utils.py` — `calculate_checksum`, `verify_checksum`, `split_message`,
  `introduce_error` (the MD5 primitive used by the checksum comes from
  Python's `hashlib` and is modelled here by an executable MD5 over byte
  lists, per RFC 1321);
* `src/protocol.py` — the message model and constants;
* `src/reliable_transport.py` — the `ReliableTransport` engine: every state
  field is carried explicitly, Python dicts become association lists with
  dict-like operations, callbacks become explicit output lists
  (`sent` for the send-callback, `delivered` for the receive-callback),
  and wall-clock time is abstracted away (timers keep only their presence,
  running flag and reset count);
* `src/client.py` — the per-packet fault-injection decision of
  `send_message`.

While-loops whose termination rests on a shrinking dict are written with an
explicit fuel equal to the dict size at entry, which bounds the number of
iterations; lemmas are stated with a `size ≤ fuel` premise matching the
call sites.
-/

namespace Redes

/-! ## Python dict operations on association lists

`dictInsert` mirrors `d[k] = v` (update in place if the key is present,
append otherwise), `dictErase` mirrors `del d[k]`, `dictContains` mirrors
`k in d`, `dictGet?` mirrors `d[k]` / `d.get(k)`. -/

def dictContains {α : Type} (k : Nat) (l : List (Nat × α)) : Bool :=
  l.any (fun p => p.1 == k)

def dictGet? {α : Type} (k : Nat) (l : List (Nat × α)) : Option α :=
  (l.find? (fun p => p.1 == k)).map Prod.snd

def dictErase {α : Type} (k : Nat) (l : List (Nat × α)) : List (Nat × α) :=
  l.filter (fun p => p.1 != k)

def dictInsert {α : Type} (k : Nat) (v : α) (l : List (Nat × α)) : List (Nat × α) :=
  if dictContains k l then l.map (fun p => if p.1 == k then (k, v) else p)
  else l ++ [(k, v)]

/-! ## Protocol message model (`src/protocol.py`)

`metadata` is a string-keyed bag in the source; the two entries the engine
reads (`is_final` on DATA, `error_code` on NACK) are carried as fields. -/

inductive MessageType where
  | HANDSHAKE_REQUEST
  | HANDSHAKE_RESPONSE
  | DATA
  | ACK
  | NACK
  | WINDOW_UPDATE
  | ERROR
  | FINISH
deriving DecidableEq, Repr

inductive OperationMode where
  | GO_BACK_N
  | SELECTIVE_REPEAT
deriving DecidableEq, Repr

structure ProtocolMessage where
  msgType : MessageType
  sequence : Nat
  payload : String
  checksum : Nat
  windowSize : Nat
  isFinal : Bool
  errorCode : String
deriving DecidableEq, Repr

/-- `DataMessage(sequence, payload, checksum, is_final)`; the base class
defaults `window_size` to 5. -/
def DataMessage (sequence : Nat) (payload : String) (checksum : Nat)
    (isFinal : Bool) : ProtocolMessage :=
  ⟨.DATA, sequence, payload, checksum, 5, isFinal, ""⟩

/-- `AckMessage(sequence, window_size)`. -/
def AckMessage (sequence : Nat) (windowSize : Nat) : ProtocolMessage :=
  ⟨.ACK, sequence, "", 0, windowSize, false, ""⟩

/-- `NackMessage(sequence, error_code)`. -/
def NackMessage (sequence : Nat) (errorCode : String) : ProtocolMessage :=
  ⟨.NACK, sequence, "", 0, 5, false, errorCode⟩

/-- `WindowUpdateMessage(new_window_size)`. -/
def WindowUpdateMessage (newWindowSize : Nat) : ProtocolMessage :=
  ⟨.WINDOW_UPDATE, 0, "", 0, newWindowSize, false, ""⟩

/-- `MAX_RETRIES = 3` from `src/protocol.py`. -/
def MAX_RETRIES : Nat := 3

/-! ## MD5 (model of Python's `hashlib.md5`, per RFC 1321)

Machine words are `Nat` values reduced modulo `2^32`. -/

def M32 : Nat := 4294967296

/-- Left-rotation of a 32-bit word, arithmetically: for `x < 2^32` the two
summands occupy disjoint bit ranges, so `+` agrees with bitwise or. -/
def rotl32 (x s : Nat) : Nat :=
  (x * 2 ^ s + x / 2 ^ (32 - s)) % M32

/-- The 64 sine-derived round constants `⌊|sin(i+1)|·2^32⌋`. -/
def md5K : List Nat :=
  [3614090360, 3905402710, 606105819, 3250441966, 4118548399, 1200080426,
   2821735955, 4249261313, 1770035416, 2336552879, 4294925233, 2304563134,
   1804603682, 4254626195, 2792965006, 1236535329, 4129170786, 3225465664,
   643717713, 3921069994, 3593408605, 38016083, 3634488961, 3889429448,
   568446438, 3275163606, 4107603335, 1163531501, 2850285829, 4243563512,
   1735328473, 2368359562, 4294588738, 2272392833, 1839030562, 4259657740,
   2763975236, 1272893353, 4139469664, 3200236656, 681279174, 3936430074,
   3572445317, 76029189, 3654602809, 3873151461, 530742520, 3299628645,
   4096336452, 1126891415, 2878612391, 4237533241, 1700485571, 2399980690,
   4293915773, 2240044497, 1873313359, 4264355552, 2734768916, 1309151649,
   4149444226, 3174756917, 718787259, 3951481745]

/-- The per-round left-rotation amounts. -/
def md5S : List Nat :=
  [7, 12, 17, 22, 7, 12, 17, 22, 7, 12, 17, 22, 7, 12, 17, 22,
   5, 9, 14, 20, 5, 9, 14, 20, 5, 9, 14, 20, 5, 9, 14, 20,
   4, 11, 16, 23, 4, 11, 16, 23, 4, 11, 16, 23, 4, 11, 16, 23,
   6, 10, 15, 21, 6, 10, 15, 21, 6, 10, 15, 21, 6, 10, 15, 21]

/-- Mixing function of round `i` applied to words `b c d`; for words below
`2^32`, complement is xor with `2^32 - 1`. -/
def md5Mix (i b c d : Nat) : Nat :=
  if i < 16 then (b &&& c) ||| ((b ^^^ 4294967295) &&& d)
  else if i < 32 then (d &&& b) ||| ((d ^^^ 4294967295) &&& c)
  else if i < 48 then b ^^^ c ^^^ d
  else c ^^^ (b ||| (d ^^^ 4294967295))

/-- Message-schedule index of round `i`. -/
def md5Idx (i : Nat) : Nat :=
  if i < 16 then i
  else if i < 32 then (5 * i + 1) % 16
  else if i < 48 then (3 * i + 5) % 16
  else (7 * i) % 16

/-- One 64-byte chunk absorbed into the state `(a, b, c, d)`. -/
def md5Round (chunk : List Nat) (st : Nat × Nat × Nat × Nat) :
    Nat × Nat × Nat × Nat :=
  let w : Nat → Nat := fun j =>
    chunk.getD (4 * j) 0 + 256 * chunk.getD (4 * j + 1) 0 +
      65536 * chunk.getD (4 * j + 2) 0 + 16777216 * chunk.getD (4 * j + 3) 0
  let step : Nat × Nat × Nat × Nat → Nat → Nat × Nat × Nat × Nat :=
    fun s i =>
      let f := (md5Mix i s.2.1 s.2.2.1 s.2.2.2 + s.1 + md5K.getD i 0 +
        w (md5Idx i)) % M32
      (s.2.2.2, (s.2.1 + rotl32 f (md5S.getD i 0)) % M32, s.2.1, s.2.2.1)
  let fin := (List.range 64).foldl step st
  ((st.1 + fin.1) % M32, (st.2.1 + fin.2.1) % M32,
   (st.2.2.1 + fin.2.2.1) % M32, (st.2.2.2 + fin.2.2.2) % M32)

/-- Absorbing the padded message chunk by chunk; `fuel` is the chunk count. -/
def md5Loop : Nat → List Nat → Nat × Nat × Nat × Nat → Nat × Nat × Nat × Nat
  | 0, _, st => st
  | fuel + 1, bytes, st => md5Loop fuel (bytes.drop 64) (md5Round (bytes.take 64) st)

/-- MD5 padding: `0x80`, zeros up to 56 mod 64, then the bit length as eight
little-endian bytes. -/
def md5Pad (msg : List Nat) : List Nat :=
  msg ++ 128 :: List.replicate ((119 - msg.length % 64) % 64) 0 ++
    (List.range 8).map (fun i => 8 * msg.length / 256 ^ i % 256)

/-- The four bytes of a 32-bit word, little-endian. -/
def leBytes (x : Nat) : List Nat :=
  [x % 256, x / 256 % 256, x / 65536 % 256, x / 16777216 % 256]

/-- The final MD5 state after absorbing the whole padded message. -/
def md5State (msg : List Nat) : Nat × Nat × Nat × Nat :=
  md5Loop ((md5Pad msg).length / 64) (md5Pad msg)
    (1732584193, 4023233417, 2562383102, 271733878)

/-- The 16-byte MD5 digest of a byte list. -/
def md5Digest (msg : List Nat) : List Nat :=
  leBytes (md5State msg).1 ++ leBytes (md5State msg).2.1 ++
    leBytes (md5State msg).2.2.1 ++ leBytes (md5State msg).2.2.2

/-! ## Checksum and framing helpers (`src/utils.py`) -/

/-- UTF-8 encoding of one character, as Python's `str.encode('utf-8')`
produces it. -/
def utf8Bytes (c : Char) : List Nat :=
  let n := c.toNat
  if n < 128 then [n]
  else if n < 2048 then [192 + n / 64, 128 + n % 64]
  else if n < 65536 then [224 + n / 4096, 128 + n / 64 % 64, 128 + n % 64]
  else [240 + n / 262144, 128 + n / 4096 % 64, 128 + n / 64 % 64, 128 + n % 64]

def strBytes (s : String) : List Nat :=
  s.data.flatMap utf8Bytes

/-- Lowercase hex digit, as in `hexdigest()`. -/
def hexDigitChar (n : Nat) : Char :=
  if n < 10 then Char.ofNat (48 + n) else Char.ofNat (87 + n)

def byteHex (b : Nat) : List Char :=
  [hexDigitChar (b / 16), hexDigitChar (b % 16)]

def hexOfBytes : List Nat → List Char
  | [] => []
  | b :: rest => byteHex b ++ hexOfBytes rest

/-- Value of one hex digit, as `int(s, 16)` reads it. -/
def hexCharVal (c : Char) : Nat :=
  if 97 ≤ c.toNat then c.toNat - 87
  else if 65 ≤ c.toNat then c.toNat - 55
  else c.toNat - 48

/-- `int(s, 16)` over the digit list. -/
def parseHex (l : List Char) : Nat :=
  l.foldl (fun acc c => 16 * acc + hexCharVal c) 0

/-- `calculate_checksum(data)`: 0 for empty input, otherwise the first 8
characters of `md5(data.encode('utf-8')).hexdigest()` parsed base 16. -/
def calculate_checksum (data : String) : Nat :=
  if data.data = [] then 0
  else parseHex ((hexOfBytes (md5Digest (strBytes data))).take 8)

/-- `verify_checksum(data, expected_checksum)`. -/
def verify_checksum (data : String) (expected : Nat) : Bool :=
  calculate_checksum data == expected

/-- The checksum as §4.1 of the specification words it: the high 32 bits of
the MD5 digest, i.e. the big-endian value of its first four bytes; empty
input yields 0. -/
def checksumHigh32 (data : String) : Nat :=
  if data.data = [] then 0
  else
    match md5Digest (strBytes data) with
    | b0 :: b1 :: b2 :: b3 :: _ => ((b0 * 256 + b1) * 256 + b2) * 256 + b3
    | _ => 0

/-- The slicing loop of `split_message`: one slice of `capPred + 1`
characters per iteration; `fuel` bounds the iteration count and is
instantiated with the character count, which suffices since every
iteration consumes at least one character. -/
def splitChunks (capPred : Nat) : Nat → List Char → List (List Char)
  | 0, _ => []
  | _, [] => []
  | fuel + 1, l => l.take (capPred + 1) :: splitChunks capPred fuel (l.drop (capPred + 1))

/-- `split_message(message, max_payload_size)`. The empty message returns
`[]` before the loop; a zero slice size makes `range` raise `ValueError`,
modelled as `none`. -/
def split_message (message : String) (cap : Nat) : Option (List String) :=
  if message.data = [] then some []
  else if cap = 0 then none
  else some ((splitChunks (cap - 1) message.data.length message.data).map
    (fun l => String.mk l))

/-! ## Reliable-transport engine (`src/reliable_transport.py`)

Wall-clock time is out of scope: a timer keeps its `is_running` flag and a
count of `reset()` calls instead of `start_time`, and the `timestamp`
field of a pending packet is dropped.  The send- and receive-callbacks are
modelled as always wired (as both endpoints configure them), so every
message handed to a callback is recorded in an output list. -/

structure Timer where
  running : Bool
  resets : Nat
deriving DecidableEq, Repr

structure PendingPacket where
  message : ProtocolMessage
  retryCount : Nat
deriving DecidableEq, Repr

structure Stats where
  packets_sent : Nat
  packets_received : Nat
  retransmissions : Nat
  errors_detected : Nat
  duplicate_packets : Nat
deriving DecidableEq, Repr

structure ReliableTransport where
  operationMode : OperationMode
  windowSize : Nat
  nextSeqNum : Nat
  expectedSeqNum : Nat
  windowStart : Nat
  windowEnd : Int
  pendingPackets : List (Nat × PendingPacket)
  receivedPackets : List (Nat × ProtocolMessage)
  timers : List (Nat × Timer)
  stats : Stats
deriving DecidableEq, Repr

/-- `ReliableTransport.__init__`. -/
def ReliableTransport.init (operationMode : OperationMode) (windowSize : Nat) :
    ReliableTransport :=
  ⟨operationMode, windowSize, 0, 0, 0, (windowSize : Int) - 1, [], [], [],
   ⟨0, 0, 0, 0, 0⟩⟩

/-- Result of one engine operation: the next state, the messages handed to
the send-callback, the messages handed to the receive-callback, and the
boolean return value. -/
structure StepResult where
  state : ReliableTransport
  sent : List ProtocolMessage
  delivered : List ProtocolMessage
  ok : Bool
deriving DecidableEq, Repr

/-- `_can_send`. -/
def can_send (t : ReliableTransport) : Bool :=
  t.pendingPackets.length < t.windowSize

/-- `send_data(payload, is_final)`. -/
def send_data (t : ReliableTransport) (payload : String) (isFinal : Bool) :
    StepResult :=
  if ¬ can_send t then ⟨t, [], [], false⟩
  else
    let checksum := calculate_checksum payload
    let message := DataMessage t.nextSeqNum payload checksum isFinal
    ⟨{ t with
        pendingPackets := dictInsert t.nextSeqNum ⟨message, 0⟩ t.pendingPackets,
        timers := dictInsert t.nextSeqNum ⟨true, 0⟩ t.timers,
        stats := { t.stats with packets_sent := t.stats.packets_sent + 1 },
        nextSeqNum := (t.nextSeqNum + 1) % 1000 },
     [message], [], true⟩

/-- The `while self.expected_seq_num in self.received_packets` loop of
`_process_ordered_packets`, returning the new delivery pointer, the new
received map, and the packets handed to the receive-callback in order.
`fuel` is instantiated with the received-map size, which bounds the
iteration count since every iteration erases one present key. -/
def processOrdered : Nat → Nat → List (Nat × ProtocolMessage) →
    Nat × List (Nat × ProtocolMessage) × List ProtocolMessage
  | 0, expected, received => (expected, received, [])
  | fuel + 1, expected, received =>
    match dictGet? expected received with
    | none => (expected, received, [])
    | some packet =>
      let rest := processOrdered fuel ((expected + 1) % 1000)
        (dictErase expected received)
      (rest.1, rest.2.1, packet :: rest.2.2)

/-- `_handle_data_message`. -/
def handle_data_message (t : ReliableTransport) (m : ProtocolMessage) :
    StepResult :=
  if ¬ verify_checksum m.payload m.checksum then
    ⟨{ t with stats :=
        { t.stats with errors_detected := t.stats.errors_detected + 1 } },
     [NackMessage m.sequence "CHECKSUM_ERROR"], [], false⟩
  else if dictContains m.sequence t.receivedPackets then
    ⟨{ t with stats :=
        { t.stats with duplicate_packets := t.stats.duplicate_packets + 1 } },
     [AckMessage m.sequence t.windowSize], [], true⟩
  else
    let received := dictInsert m.sequence m t.receivedPackets
    let ordered :=
      if t.operationMode = .GO_BACK_N then
        processOrdered received.length t.expectedSeqNum received
      else (t.expectedSeqNum, received, [])
    ⟨{ t with
        receivedPackets := ordered.2.1,
        expectedSeqNum := ordered.1,
        stats :=
          { t.stats with packets_received := t.stats.packets_received + 1 } },
     [AckMessage m.sequence t.windowSize], ordered.2.2 ++ [m], true⟩

/-- The `while self.window_start in self.pending_packets` loop of
`_update_window` in `GO_BACK_N` mode.  `fuel` is instantiated with the
pending-map size at entry. -/
def updateWindowLoop : Nat → ReliableTransport → ReliableTransport
  | 0, t => t
  | fuel + 1, t =>
    if dictContains t.windowStart t.pendingPackets then
      updateWindowLoop fuel
        { t with
            pendingPackets := dictErase t.windowStart t.pendingPackets,
            timers := dictErase t.windowStart t.timers,
            windowStart := (t.windowStart + 1) % 1000 }
    else t

/-- `_update_window`: the loop above for `GO_BACK_N`, a no-op (`pass`) for
`SELECTIVE_REPEAT`. -/
def update_window (t : ReliableTransport) : ReliableTransport :=
  match t.operationMode with
  | .GO_BACK_N => updateWindowLoop t.pendingPackets.length t
  | .SELECTIVE_REPEAT => t

/-- `_handle_ack_message`.  The block printing the summarized
acknowledgement for a completed window only writes to the console and is
omitted. -/
def handle_ack_message (t : ReliableTransport) (m : ProtocolMessage) :
    StepResult :=
  if dictContains m.sequence t.pendingPackets then
    ⟨update_window
      { t with
          pendingPackets := dictErase m.sequence t.pendingPackets,
          timers := dictErase m.sequence t.timers },
     [], [], true⟩
  else ⟨t, [], [], true⟩

/-- The `if seq_num in self.timers: self.timers[seq_num].reset()` step. -/
def timerReset (seq : Nat) (timers : List (Nat × Timer)) : List (Nat × Timer) :=
  timers.map (fun p =>
    if p.1 == seq then (p.1, { p.2 with resets := p.2.resets + 1 }) else p)

/-- `_retransmit_packet(seq_num)`: the new state and the messages handed to
the send-callback. -/
def retransmit_packet (t : ReliableTransport) (seq : Nat) :
    ReliableTransport × List ProtocolMessage :=
  match dictGet? seq t.pendingPackets with
  | none => (t, [])
  | some p =>
    if p.retryCount + 1 ≤ MAX_RETRIES then
      ({ t with
          pendingPackets :=
            dictInsert seq { p with retryCount := p.retryCount + 1 } t.pendingPackets,
          stats :=
            { t.stats with retransmissions := t.stats.retransmissions + 1 },
          timers := timerReset seq t.timers },
       [p.message])
    else
      ({ t with
          pendingPackets := dictErase seq t.pendingPackets,
          timers := dictErase seq t.timers },
       [])

/-- `_handle_nack_message`. -/
def handle_nack_message (t : ReliableTransport) (m : ProtocolMessage) :
    StepResult :=
  if dictContains m.sequence t.pendingPackets then
    let r := retransmit_packet t m.sequence
    ⟨r.1, r.2, [], true⟩
  else ⟨t, [], [], true⟩

/-- `_handle_window_update`. -/
def handle_window_update (t : ReliableTransport) (m : ProtocolMessage) :
    StepResult :=
  ⟨update_window { t with windowSize := m.windowSize }, [], [], true⟩

/-- `receive_message(message)`. -/
def receive_message (t : ReliableTransport) (m : ProtocolMessage) : StepResult :=
  match m.msgType with
  | .DATA => handle_data_message t m
  | .ACK => handle_ack_message t m
  | .NACK => handle_nack_message t m
  | .WINDOW_UPDATE => handle_window_update t m
  | _ => ⟨t, [], [], false⟩

/-- `reset()`. -/
def ReliableTransport.reset (t : ReliableTransport) : ReliableTransport :=
  { t with
      nextSeqNum := 0, expectedSeqNum := 0, windowStart := 0,
      windowEnd := (t.windowSize : Int) - 1,
      pendingPackets := [], receivedPackets := [], timers := [],
      stats := ⟨0, 0, 0, 0, 0⟩ }

/-! ## Traces of engine operations -/

inductive TransportOp where
  | send (payload : String) (isFinal : Bool)
  | receive (m : ProtocolMessage)
  | retransmit (seq : Nat)
  | reset
deriving DecidableEq, Repr

def applyOp (t : ReliableTransport) : TransportOp → ReliableTransport
  | .send payload isFinal => (send_data t payload isFinal).state
  | .receive m => (receive_message t m).state
  | .retransmit seq => (retransmit_packet t seq).1
  | .reset => t.reset

def runOps (t : ReliableTransport) (ops : List TransportOp) : ReliableTransport :=
  ops.foldl applyOp t

/-- `True` exactly on operations that feed a `WINDOW_UPDATE` message to
`receive_message`. -/
def isWindowUpdate : TransportOp → Bool
  | .receive m => m.msgType == .WINDOW_UPDATE
  | _ => false

/-- Iterating `_retransmit_packet` on one sequence number: the final state
and how many times the DATA message was handed to the send-callback. -/
def retransmitCalls : ReliableTransport → Nat → Nat → ReliableTransport × Nat
  | t, _, 0 => (t, 0)
  | t, seq, n + 1 =>
    let r := retransmit_packet t seq
    let rest := retransmitCalls r.1 seq n
    (rest.1, r.2.length + rest.2)

/-! ## Client-side fault injection (`src/client.py`, `src/utils.py`)

`random.randint` / `random.random` draws are supplied as explicit
arguments (`pos`, `probTrigger`); the `error_probability` float itself
plays no further role.  -/

/-- One corrupted character under a given strategy: `random` replaces the
code with `(code+1) mod 256`, `bit_flip` xors the code with 1,
`character_change` writes `'X'`; an unknown strategy leaves the character
unchanged (the source falls through and returns the data unmodified). -/
def corruptChar (c : Char) (errorType : String) : Char :=
  if errorType = "random" then Char.ofNat ((c.toNat + 1) % 256)
  else if errorType = "bit_flip" then Char.ofNat (c.toNat ^^^ 1)
  else if errorType = "character_change" then 'X'
  else c

/-- `introduce_error(data, error_type)` with the random position draw
`pos` made explicit. -/
def introduce_error (data : String) (errorType : String) (pos : Nat) : String :=
  if data.data = [] then data
  else if errorType = "random" ∨ errorType = "bit_flip" ∨
      errorType = "character_change" then
    String.mk (data.data.set pos (corruptChar (data.data.getD pos default) errorType))
  else data

/-- Modelled from the spec: `introduce_error_at(data, char_index,
error_type)` is imported and called by `src/client.py` but its definition
is missing from `src/utils.py`.  §4.6 of the specification: the
deterministic mode "corrupts exactly those packets at exactly that
character position", using the configured strategy.  The spec does not
address an out-of-range character index; `List.set` leaves the data
unchanged there. -/
def introduce_error_at (data : String) (charIndex : Nat) (errorType : String) :
    String :=
  if data.data = [] then data
  else String.mk (data.data.set charIndex
    (corruptChar (data.data.getD charIndex default) errorType))

/-- The client's `error_simulation` dictionary (the Bernoulli probability
itself is not carried; its draws are). -/
structure ErrorSim where
  enabled : Bool
  errorType : String
  deterministicPackets : List Nat
  deterministicCharIndex : Nat
deriving DecidableEq, Repr

/-- `set_deterministic_error_plan(packet_indices, char_index, error_type)`:
stores the plan, clamps the character index at 0, overrides the error type
only when a non-empty one is given, and enables the simulation. -/
def set_deterministic_error_plan (sim : ErrorSim) (packetIndices : List Nat)
    (charIndex : Int) (errorType : Option String) : ErrorSim :=
  { sim with
      deterministicPackets := packetIndices,
      deterministicCharIndex := (max 0 charIndex).toNat,
      errorType := match errorType with
        | some e => if e = "" then sim.errorType else e
        | none => sim.errorType,
      enabled := true }

/-- The per-packet fault-injection decision of `send_message`
(`src/client.py`, lines 240–255): with simulation enabled, a packet whose
0-based index is in a non-empty deterministic plan is corrupted by
`introduce_error_at` at the planned character index; otherwise the
Bernoulli draw `probTrigger` decides whether `introduce_error` corrupts
it at the random position `randPos`. -/
def clientTransformPacket (sim : ErrorSim) (probTrigger : Bool) (randPos : Nat)
    (i : Nat) (packet : String) : String :=
  if sim.enabled then
    if sim.deterministicPackets ≠ [] ∧ i ∈ sim.deterministicPackets then
      introduce_error_at packet sim.deterministicCharIndex sim.errorType
    else if probTrigger then introduce_error packet sim.errorType randPos
    else packet
  else packet

def mapWithIndex (f : Nat → String → String) : Nat → List String → List String
  | _, [] => []
  | i, p :: ps => f i p :: mapWithIndex f (i + 1) ps

/-- The whole `for i, packet in enumerate(packets)` transformation of one
message's packets, with per-index oracles for the two random draws. -/
def clientSendPackets (sim : ErrorSim) (probOracle : Nat → Bool)
    (posOracle : Nat → Nat) (packets : List String) : List String :=
  mapWithIndex
    (fun i p => clientTransformPacket sim (probOracle i) (posOracle i) i p)
    0 packets

/-! ## Association-list lemmas -/

theorem dictContains_nil {α : Type} (k : Nat) :
    dictContains k ([] : List (Nat × α)) = false := rfl

theorem length_dictErase_le {α : Type} (k : Nat) (l : List (Nat × α)) :
    (dictErase k l).length ≤ l.length :=
  List.length_filter_le _ l

theorem length_dictErase_lt {α : Type} (k : Nat) (l : List (Nat × α))
    (h : dictContains k l = true) : (dictErase k l).length < l.length := by
  induction l with
  | nil => simp [dictContains] at h
  | cons p rest ih =>
    cases hb : (p.1 == k) with
    | true =>
      have hbne : (p.1 != k) = false := by simp [bne, hb]
      simp only [dictErase, List.filter_cons, hbne, List.length_cons,
        Bool.false_eq_true, if_false]
      exact Nat.lt_succ_of_le (List.length_filter_le _ rest)
    | false =>
      have h' : dictContains k rest = true := by
        simp only [dictContains, List.any_cons, hb, Bool.false_or] at h
        exact h
      have hbne : (p.1 != k) = true := by simp [bne, hb]
      simp only [dictErase, List.filter_cons, hbne, if_true, List.length_cons]
      exact Nat.succ_lt_succ (ih h')

theorem dictContains_of_dictContains_dictErase {α : Type} (j k : Nat)
    (l : List (Nat × α)) (h : dictContains j (dictErase k l) = true) :
    dictContains j l = true := by
  simp only [dictContains, dictErase, List.any_eq_true] at h ⊢
  obtain ⟨p, hp, hj⟩ := h
  exact ⟨p, List.mem_of_mem_filter hp, hj⟩

theorem dictContains_dictErase_self {α : Type} (k : Nat) (l : List (Nat × α)) :
    dictContains k (dictErase k l) = false := by
  rw [← Bool.not_eq_true]
  simp only [dictContains, dictErase, List.any_eq_true]
  rintro ⟨p, hp, hk⟩
  have h1 : (p.1 != k) = true := (List.mem_filter.mp hp).2
  simp only [bne_iff_ne, ne_eq] at h1
  exact h1 (by simpa using hk)

theorem length_dictInsert_le {α : Type} (k : Nat) (v : α) (l : List (Nat × α)) :
    (dictInsert k v l).length ≤ l.length + 1 := by
  unfold dictInsert
  split
  · simp
  · simp

theorem length_dictInsert_of_contains {α : Type} (k : Nat) (v : α)
    (l : List (Nat × α)) (h : dictContains k l = true) :
    (dictInsert k v l).length = l.length := by
  unfold dictInsert
  rw [if_pos h]
  simp

theorem find?_map_overwrite {α : Type} (k : Nat) (v : α) (l : List (Nat × α))
    (h : dictContains k l = true) :
    (l.map (fun p => if p.1 == k then (k, v) else p)).find?
      (fun p => p.1 == k) = some (k, v) := by
  induction l with
  | nil => simp [dictContains] at h
  | cons p rest ih =>
    by_cases hp : p.1 = k
    · have hmap : (p :: rest).map (fun q => if q.1 == k then (k, v) else q) =
          (k, v) :: rest.map (fun q => if q.1 == k then (k, v) else q) := by
        simp [hp]
      rw [hmap, List.find?_cons_of_pos _ (by simp)]
    · have hb : (p.1 == k) = false := by simpa using hp
      have h' : dictContains k rest = true := by
        simp only [dictContains, List.any_cons, hb, Bool.false_or] at h
        exact h
      have hmap : (p :: rest).map (fun q => if q.1 == k then (k, v) else q) =
          p :: rest.map (fun q => if q.1 == k then (k, v) else q) := by
        rw [List.map_cons, if_neg (by simp [hb])]
      rw [hmap, List.find?_cons_of_neg _ (by simp [hp]), ih h']

theorem find?_append_of_not_contains {α : Type} (k : Nat) (l tail : List (Nat × α))
    (h : dictContains k l = false) :
    (l ++ tail).find? (fun p => p.1 == k) = tail.find? (fun p => p.1 == k) := by
  induction l with
  | nil => rfl
  | cons p rest ih =>
    have hb : (p.1 == k) = false := by
      cases hb : (p.1 == k) with
      | true => simp [dictContains, List.any_cons, hb] at h
      | false => rfl
    have h' : dictContains k rest = false := by
      simp only [dictContains, List.any_cons, hb, Bool.false_or] at h
      exact h
    simp only [List.cons_append, List.find?_cons, hb, ih h']

theorem dictContains_eq_isSome_dictGet? {α : Type} (k : Nat)
    (l : List (Nat × α)) : dictContains k l = (dictGet? k l).isSome := by
  induction l with
  | nil => rfl
  | cons p rest ih =>
    simp only [dictContains, dictGet?, List.any_cons, List.find?_cons] at ih ⊢
    cases hb : (p.1 == k) with
    | true => simp
    | false => simpa using ih

theorem dictGet?_dictErase_self {α : Type} (k : Nat) (l : List (Nat × α)) :
    dictGet? k (dictErase k l) = none := by
  have h : dictContains k (dictErase k l) = false := dictContains_dictErase_self k l
  cases hg : dictGet? k (dictErase k l) with
  | none => rfl
  | some v =>
    rw [dictContains_eq_isSome_dictGet?, hg] at h
    simp at h

theorem dictGet?_dictInsert_self {α : Type} (k : Nat) (v : α)
    (l : List (Nat × α)) : dictGet? k (dictInsert k v l) = some v := by
  unfold dictInsert
  by_cases h : dictContains k l = true
  · rw [if_pos h]
    unfold dictGet?
    rw [find?_map_overwrite k v l h]
    rfl
  · have h' : dictContains k l = false := by simpa using h
    rw [if_neg (by simp [h'])]
    unfold dictGet?
    rw [find?_append_of_not_contains k l _ h']
    simp [List.find?_cons]

/-! ## Claim C10 — non-transport message kinds -/

/-- C10: for every message whose kind is not DATA, ACK, NACK or
WINDOW_UPDATE (i.e. ERROR, FINISH, HANDSHAKE_REQ or HANDSHAKE_RESP),
`receive_message` returns false, emits nothing, delivers nothing, and
leaves the entire engine state unchanged. -/
theorem receive_message_other_kinds (t : ReliableTransport) (m : ProtocolMessage)
    (h : m.msgType = .ERROR ∨ m.msgType = .FINISH ∨
      m.msgType = .HANDSHAKE_REQUEST ∨ m.msgType = .HANDSHAKE_RESPONSE) :
    receive_message t m = ⟨t, [], [], false⟩ := by
  unfold receive_message
  rcases h with h | h | h | h <;> rw [h]

theorem receive_message_other_kinds_witness :
    receive_message (ReliableTransport.init .GO_BACK_N 5)
      ⟨.FINISH, 0, "", 0, 5, false, ""⟩ =
      ⟨ReliableTransport.init .GO_BACK_N 5, [], [], false⟩ :=
  receive_message_other_kinds _ _ (Or.inr (Or.inl rfl))

/-! ## Claim C6 — checksum failure on a received DATA -/

/-- C6: a DATA message failing checksum verification makes the engine emit
exactly one NACK carrying the message's sequence number and error code
CHECKSUM_ERROR, increment `errors_detected`, deliver nothing, store
nothing, and leave every other part of the state unchanged. -/
theorem checksum_failure_nacks (t : ReliableTransport) (m : ProtocolMessage)
    (hty : m.msgType = .DATA)
    (hck : verify_checksum m.payload m.checksum = false) :
    receive_message t m =
      ⟨{ t with stats :=
          { t.stats with errors_detected := t.stats.errors_detected + 1 } },
       [NackMessage m.sequence "CHECKSUM_ERROR"], [], false⟩ := by
  unfold receive_message
  rw [hty]
  simp [handle_data_message, hck]

theorem checksum_failure_nacks_witness :
    receive_message (ReliableTransport.init .GO_BACK_N 5)
      ⟨.DATA, 7, "", 1, 5, false, ""⟩ =
      ⟨{ ReliableTransport.init .GO_BACK_N 5 with stats := ⟨0, 0, 0, 1, 0⟩ },
       [NackMessage 7 "CHECKSUM_ERROR"], [], false⟩ :=
  checksum_failure_nacks _ _ rfl (by decide)

/-! ## Claim C4 — `send_data` -/

/-- C4: `send_data` returns false and changes nothing when the pending map
holds at least `window_size` entries; otherwise it emits one DATA message
carrying `next_seq_num`, the payload and its checksum, records a pending
entry with retry count 0 and a fresh started timer under that sequence,
bumps `packets_sent`, advances `next_seq_num` modulo 1000, and returns
true. -/
theorem send_data_spec (t : ReliableTransport) (payload : String) (isFinal : Bool) :
    ((send_data t payload isFinal).ok = false ↔
      t.windowSize ≤ t.pendingPackets.length) ∧
    (t.windowSize ≤ t.pendingPackets.length →
      send_data t payload isFinal = ⟨t, [], [], false⟩) ∧
    (t.pendingPackets.length < t.windowSize →
      (send_data t payload isFinal).ok = true ∧
      (send_data t payload isFinal).sent =
        [DataMessage t.nextSeqNum payload (calculate_checksum payload) isFinal] ∧
      dictGet? t.nextSeqNum (send_data t payload isFinal).state.pendingPackets =
        some ⟨DataMessage t.nextSeqNum payload (calculate_checksum payload) isFinal, 0⟩ ∧
      dictGet? t.nextSeqNum (send_data t payload isFinal).state.timers =
        some ⟨true, 0⟩ ∧
      (send_data t payload isFinal).state.nextSeqNum = (t.nextSeqNum + 1) % 1000 ∧
      (send_data t payload isFinal).state.stats.packets_sent =
        t.stats.packets_sent + 1) := by
  refine ⟨?_, ?_, ?_⟩
  · by_cases h : t.pendingPackets.length < t.windowSize
    · simp [send_data, can_send, h]
    · simp [send_data, can_send, h]
      omega
  · intro h
    have h' : ¬ t.pendingPackets.length < t.windowSize := by omega
    simp [send_data, can_send, h']
  · intro h
    have hcs : can_send t := by simpa [can_send] using h
    unfold send_data
    rw [if_neg (not_not_intro hcs)]
    exact ⟨rfl, rfl, dictGet?_dictInsert_self _ _ _,
      dictGet?_dictInsert_self _ _ _, rfl, rfl⟩

theorem send_data_spec_witness :
    ((send_data (ReliableTransport.init .GO_BACK_N 0) "o!" true).ok = false ∧
     send_data (ReliableTransport.init .GO_BACK_N 0) "o!" true =
       ⟨ReliableTransport.init .GO_BACK_N 0, [], [], false⟩) ∧
    ((send_data (ReliableTransport.init .GO_BACK_N 5) "o!" true).ok = true ∧
     (send_data (ReliableTransport.init .GO_BACK_N 5) "o!" true).state.nextSeqNum =
       (0 + 1) % 1000) :=
  ⟨⟨(send_data_spec (ReliableTransport.init .GO_BACK_N 0) "o!" true).1.mpr
      (by decide),
    (send_data_spec (ReliableTransport.init .GO_BACK_N 0) "o!" true).2.1
      (by decide)⟩,
   ⟨((send_data_spec (ReliableTransport.init .GO_BACK_N 5) "o!" true).2.2
      (by decide)).1,
    ((send_data_spec (ReliableTransport.init .GO_BACK_N 5) "o!" true).2.2
      (by decide)).2.2.2.2.1⟩⟩

/-! ## Claim C1 — delivery to the delivery-callback in GO_BACK_N -/

set_option maxRecDepth 100000 in
/-- C1 fails on the code: a fresh GO_BACK_N engine receiving one valid,
in-order DATA packet hands its payload to the delivery-callback twice —
once from `_process_ordered_packets` and once more from the unconditional
`receive_callback(message)` call at the end of `_handle_data_message` —
so the delivered sequence does not equal the sent sequence and a payload
is delivered more than once. -/
theorem data_payload_delivered_twice :
    (receive_message (ReliableTransport.init .GO_BACK_N 5)
        (DataMessage 0 "Hell" (calculate_checksum "Hell") false)).delivered =
      [DataMessage 0 "Hell" (calculate_checksum "Hell") false,
       DataMessage 0 "Hell" (calculate_checksum "Hell") false] := by
  decide

/-! ## Claim C2 — how pending entries are erased -/

set_option maxRecDepth 100000 in
/-- C2 counterexample: after two sends (sequences 0 and 1), processing the
single ACK for sequence 1 also erases the pending entry of sequence 0 —
which was never ACKed and never exceeded the retry ceiling — because
`_update_window` deletes entries at `window_start` while they are still
in the pending map; the third conjunct exhibits `update_window` itself
removing the entry. -/
theorem window_advance_erases_pending_entry :
    dictContains 0 (runOps (ReliableTransport.init .GO_BACK_N 5)
        [.send "Hell" false, .send "o, t" false]).pendingPackets = true ∧
    dictContains 0 (runOps (ReliableTransport.init .GO_BACK_N 5)
        [.send "Hell" false, .send "o, t" false,
         .receive (AckMessage 1 5)]).pendingPackets = false ∧
    dictContains 0 (update_window
      { runOps (ReliableTransport.init .GO_BACK_N 5)
          [.send "Hell" false, .send "o, t" false] with
        pendingPackets := dictErase 1 (runOps (ReliableTransport.init .GO_BACK_N 5)
          [.send "Hell" false, .send "o, t" false]).pendingPackets,
        timers := dictErase 1 (runOps (ReliableTransport.init .GO_BACK_N 5)
          [.send "Hell" false, .send "o, t" false]).timers }).pendingPackets
      = false := by
  decide

theorem updateWindowLoop_windowSize (fuel : Nat) (t : ReliableTransport) :
    (updateWindowLoop fuel t).windowSize = t.windowSize := by
  induction fuel generalizing t with
  | zero => rfl
  | succ n ih =>
    unfold updateWindowLoop
    by_cases h : dictContains t.windowStart t.pendingPackets = true
    · rw [if_pos h, ih]
    · rw [if_neg (by simpa using h)]

theorem updateWindowLoop_length_le (fuel : Nat) (t : ReliableTransport) :
    (updateWindowLoop fuel t).pendingPackets.length ≤
      t.pendingPackets.length := by
  induction fuel generalizing t with
  | zero => exact le_rfl
  | succ n ih =>
    unfold updateWindowLoop
    by_cases h : dictContains t.windowStart t.pendingPackets = true
    · rw [if_pos h]
      exact le_trans (ih _) (length_dictErase_le _ _)
    · rw [if_neg (by simpa using h)]

theorem updateWindowLoop_not_contains (fuel : Nat) (t : ReliableTransport)
    (h : t.pendingPackets.length ≤ fuel) :
    dictContains (updateWindowLoop fuel t).windowStart
      (updateWindowLoop fuel t).pendingPackets = false := by
  induction fuel generalizing t with
  | zero =>
    have hnil : t.pendingPackets = [] :=
      List.length_eq_zero.mp (Nat.le_zero.mp h)
    simp [updateWindowLoop, dictContains, hnil]
  | succ n ih =>
    unfold updateWindowLoop
    by_cases hc : dictContains t.windowStart t.pendingPackets = true
    · rw [if_pos hc]
      exact ih _ (by
        have := length_dictErase_lt t.windowStart t.pendingPackets hc
        simpa using Nat.lt_succ_iff.mp (lt_of_lt_of_le this h))
    · rw [if_neg (by simpa using hc)]
      simpa using hc

theorem updateWindowLoop_subset (fuel : Nat) (t : ReliableTransport) (k : Nat)
    (h : dictContains k (updateWindowLoop fuel t).pendingPackets = true) :
    dictContains k t.pendingPackets = true := by
  induction fuel generalizing t with
  | zero => exact h
  | succ n ih =>
    unfold updateWindowLoop at h
    by_cases hc : dictContains t.windowStart t.pendingPackets = true
    · rw [if_pos hc] at h
      exact dictContains_of_dictContains_dictErase _ _ _ (ih _ h)
    · rwa [if_neg (by simpa using hc)] at h

theorem update_window_windowSize (t : ReliableTransport) :
    (update_window t).windowSize = t.windowSize := by
  unfold update_window
  cases t.operationMode with
  | GO_BACK_N => exact updateWindowLoop_windowSize _ _
  | SELECTIVE_REPEAT => rfl

theorem update_window_length_le (t : ReliableTransport) :
    (update_window t).pendingPackets.length ≤ t.pendingPackets.length := by
  unfold update_window
  cases t.operationMode with
  | GO_BACK_N => exact updateWindowLoop_length_le _ _
  | SELECTIVE_REPEAT => exact le_rfl

/-- C2 corrected: in GO_BACK_N the window-advance deletes the pending
entries at `window_start`, `window_start+1 mod 1000`, … for as long as
they are present (so an entry can be erased by the advance itself, not
only by its matching ACK or by retry exhaustion); afterwards
`window_start` is not in the pending map, and the advance never adds
entries.  In SELECTIVE_REPEAT the advance is a no-op. -/
theorem update_window_characterization (t : ReliableTransport) :
    (t.operationMode = .GO_BACK_N →
      dictContains (update_window t).windowStart
        (update_window t).pendingPackets = false ∧
      (∀ k, dictContains k (update_window t).pendingPackets = true →
        dictContains k t.pendingPackets = true)) ∧
    (t.operationMode = .SELECTIVE_REPEAT → update_window t = t) := by
  constructor
  · intro hm
    unfold update_window
    rw [hm]
    exact ⟨updateWindowLoop_not_contains _ _ le_rfl,
      fun k hk => updateWindowLoop_subset _ _ _ hk⟩
  · intro hm
    unfold update_window
    rw [hm]

theorem update_window_characterization_witness :
    dictContains
      (update_window ⟨.GO_BACK_N, 5, 2, 0, 0, 4,
        [(5, ⟨DataMessage 5 "x" 0 false, 0⟩)], [], [], ⟨0, 0, 0, 0, 0⟩⟩).windowStart
      (update_window ⟨.GO_BACK_N, 5, 2, 0, 0, 4,
        [(5, ⟨DataMessage 5 "x" 0 false, 0⟩)], [], [], ⟨0, 0, 0, 0, 0⟩⟩).pendingPackets
      = false ∧
    dictContains 5
      (⟨.GO_BACK_N, 5, 2, 0, 0, 4, [(5, ⟨DataMessage 5 "x" 0 false, 0⟩)], [], [],
        ⟨0, 0, 0, 0, 0⟩⟩ : ReliableTransport).pendingPackets = true ∧
    update_window ⟨.SELECTIVE_REPEAT, 5, 0, 0, 0, 4, [], [], [], ⟨0, 0, 0, 0, 0⟩⟩ =
      ⟨.SELECTIVE_REPEAT, 5, 0, 0, 0, 4, [], [], [], ⟨0, 0, 0, 0, 0⟩⟩ :=
  ⟨((update_window_characterization _).1 rfl).1,
   ((update_window_characterization ⟨.GO_BACK_N, 5, 2, 0, 0, 4,
      [(5, ⟨DataMessage 5 "x" 0 false, 0⟩)], [], [], ⟨0, 0, 0, 0, 0⟩⟩).1 rfl).2 5
      (by decide),
   (update_window_characterization _).2 rfl⟩

/-! ## Claim C3 — the window cap -/

set_option maxRecDepth 100000 in
/-- C3 counterexample: from a fresh SELECTIVE_REPEAT engine with window 5,
two sends followed by a WINDOW_UPDATE carrying window size 1 leave two
pending packets against a window of 1, so `|pending| ≤ window_size` fails
in a reachable state. -/
theorem window_update_breaks_window_cap :
    (runOps (ReliableTransport.init .SELECTIVE_REPEAT 5)
        [.send "Hell" false, .send "o, t" false,
         .receive (WindowUpdateMessage 1)]).windowSize <
      (runOps (ReliableTransport.init .SELECTIVE_REPEAT 5)
        [.send "Hell" false, .send "o, t" false,
         .receive (WindowUpdateMessage 1)]).pendingPackets.length := by
  decide

theorem handle_data_message_pending (t : ReliableTransport)
    (m : ProtocolMessage) :
    (handle_data_message t m).state.pendingPackets = t.pendingPackets ∧
    (handle_data_message t m).state.windowSize = t.windowSize := by
  unfold handle_data_message
  split
  · exact ⟨rfl, rfl⟩
  · split
    · exact ⟨rfl, rfl⟩
    · exact ⟨rfl, rfl⟩

theorem retransmit_packet_cap (t : ReliableTransport) (seq : Nat) :
    (retransmit_packet t seq).1.pendingPackets.length ≤
      t.pendingPackets.length ∧
    (retransmit_packet t seq).1.windowSize = t.windowSize := by
  unfold retransmit_packet
  split
  · exact ⟨le_rfl, rfl⟩
  · rename_i p hget
    split
    · refine ⟨le_of_eq (length_dictInsert_of_contains _ _ _ ?_), rfl⟩
      rw [dictContains_eq_isSome_dictGet?, hget]
      rfl
    · exact ⟨length_dictErase_le _ _, rfl⟩

theorem applyOp_window_cap (t : ReliableTransport) (op : TransportOp)
    (hop : isWindowUpdate op = false)
    (hcap : t.pendingPackets.length ≤ t.windowSize) :
    (applyOp t op).pendingPackets.length ≤ (applyOp t op).windowSize := by
  cases op with
  | send payload isFinal =>
    show (send_data t payload isFinal).state.pendingPackets.length ≤
      (send_data t payload isFinal).state.windowSize
    unfold send_data
    by_cases h : can_send t
    · rw [if_neg (not_not_intro h)]
      have hlt : t.pendingPackets.length < t.windowSize := by
        simpa [can_send] using h
      have := length_dictInsert_le t.nextSeqNum
        (⟨DataMessage t.nextSeqNum payload (calculate_checksum payload) isFinal,
          0⟩ : PendingPacket) t.pendingPackets
      show (dictInsert t.nextSeqNum _ t.pendingPackets).length ≤ t.windowSize
      omega
    · rw [if_pos h]
      exact hcap
  | receive m =>
    cases hm : m.msgType with
    | DATA =>
      have hred : applyOp t (.receive m) = (handle_data_message t m).state := by
        simp [applyOp, receive_message, hm]
      rw [hred, (handle_data_message_pending t m).1,
        (handle_data_message_pending t m).2]
      exact hcap
    | ACK =>
      have hred : applyOp t (.receive m) = (handle_ack_message t m).state := by
        simp [applyOp, receive_message, hm]
      rw [hred]
      unfold handle_ack_message
      by_cases hc : dictContains m.sequence t.pendingPackets = true
      · rw [if_pos hc]
        have h1 := update_window_length_le
          { t with pendingPackets := dictErase m.sequence t.pendingPackets,
                   timers := dictErase m.sequence t.timers }
        have h2 := update_window_windowSize
          { t with pendingPackets := dictErase m.sequence t.pendingPackets,
                   timers := dictErase m.sequence t.timers }
        have h3 := length_dictErase_le m.sequence t.pendingPackets
        simp only [] at h1 h2 ⊢
        rw [h2]
        omega
      · rw [if_neg (by simpa using hc)]
        exact hcap
    | NACK =>
      have hred : applyOp t (.receive m) = (handle_nack_message t m).state := by
        simp [applyOp, receive_message, hm]
      rw [hred]
      unfold handle_nack_message
      by_cases hc : dictContains m.sequence t.pendingPackets = true
      · rw [if_pos hc]
        have h1 := retransmit_packet_cap t m.sequence
        show (retransmit_packet t m.sequence).1.pendingPackets.length ≤
          (retransmit_packet t m.sequence).1.windowSize
        rw [h1.2]
        omega
      · rw [if_neg (by simpa using hc)]
        exact hcap
    | WINDOW_UPDATE => simp [isWindowUpdate, hm] at hop
    | HANDSHAKE_REQUEST =>
      have hred : applyOp t (.receive m) = t := by
        simp [applyOp, receive_message, hm]
      rw [hred]; exact hcap
    | HANDSHAKE_RESPONSE =>
      have hred : applyOp t (.receive m) = t := by
        simp [applyOp, receive_message, hm]
      rw [hred]; exact hcap
    | ERROR =>
      have hred : applyOp t (.receive m) = t := by
        simp [applyOp, receive_message, hm]
      rw [hred]; exact hcap
    | FINISH =>
      have hred : applyOp t (.receive m) = t := by
        simp [applyOp, receive_message, hm]
      rw [hred]; exact hcap
  | retransmit seq =>
    have h1 := retransmit_packet_cap t seq
    show (retransmit_packet t seq).1.pendingPackets.length ≤
      (retransmit_packet t seq).1.windowSize
    rw [h1.2]
    omega
  | reset =>
    show (ReliableTransport.reset t).pendingPackets.length ≤ _
    simp [ReliableTransport.reset]

theorem runOps_window_cap (ops : List TransportOp) (t : ReliableTransport)
    (hops : ∀ op ∈ ops, isWindowUpdate op = false)
    (hcap : t.pendingPackets.length ≤ t.windowSize) :
    (runOps t ops).pendingPackets.length ≤ (runOps t ops).windowSize := by
  induction ops generalizing t with
  | nil => exact hcap
  | cons op rest ih =>
    exact ih (applyOp t op)
      (fun o ho => hops o (List.mem_cons_of_mem _ ho))
      (applyOp_window_cap t op (hops op (List.mem_cons_self _ _)) hcap)

/-- C3 corrected: starting from a freshly initialized engine, after any
sequence of `send_data`, `receive_message` of DATA/ACK/NACK (or ignored)
messages, `_retransmit_packet` and `reset` operations — i.e. any trace
without WINDOW_UPDATE messages — the pending map never holds more than
`window_size` entries.  (A WINDOW_UPDATE that shrinks `window_size` below
the pending count breaks the cap, as the counterexample shows.) -/
theorem window_cap_without_window_update (mode : OperationMode) (ws : Nat)
    (ops : List TransportOp)
    (hops : ∀ op ∈ ops, isWindowUpdate op = false) :
    (runOps (ReliableTransport.init mode ws) ops).pendingPackets.length ≤
      (runOps (ReliableTransport.init mode ws) ops).windowSize :=
  runOps_window_cap ops _ hops (by simp [ReliableTransport.init])

theorem window_cap_without_window_update_witness :
    (runOps (ReliableTransport.init .GO_BACK_N 5)
        [.send "Hell" false, .receive (AckMessage 0 5)]).pendingPackets.length ≤
      (runOps (ReliableTransport.init .GO_BACK_N 5)
        [.send "Hell" false, .receive (AckMessage 0 5)]).windowSize :=
  window_cap_without_window_update .GO_BACK_N 5
    [.send "Hell" false, .receive (AckMessage 0 5)] (by decide)

/-! ## Claim C5 — `_retransmit_packet` and the retry ceiling -/

theorem retransmit_packet_eq_none (t : ReliableTransport) (seq : Nat)
    (h : dictGet? seq t.pendingPackets = none) :
    retransmit_packet t seq = (t, []) := by
  unfold retransmit_packet
  rw [h]

theorem retransmit_packet_eq_retry (t : ReliableTransport) (seq : Nat)
    (p : PendingPacket) (h : dictGet? seq t.pendingPackets = some p)
    (hr : p.retryCount + 1 ≤ MAX_RETRIES) :
    retransmit_packet t seq =
      ({ t with
          pendingPackets :=
            dictInsert seq { p with retryCount := p.retryCount + 1 } t.pendingPackets,
          stats :=
            { t.stats with retransmissions := t.stats.retransmissions + 1 },
          timers := timerReset seq t.timers },
       [p.message]) := by
  unfold retransmit_packet
  split
  · rename_i hnone
    rw [h] at hnone
    exact Option.noConfusion hnone
  · rename_i q hq
    rw [h] at hq
    injection hq with hpq
    subst hpq
    rw [if_pos hr]

theorem retransmit_packet_eq_drop (t : ReliableTransport) (seq : Nat)
    (p : PendingPacket) (h : dictGet? seq t.pendingPackets = some p)
    (hr : ¬ p.retryCount + 1 ≤ MAX_RETRIES) :
    retransmit_packet t seq =
      ({ t with
          pendingPackets := dictErase seq t.pendingPackets,
          timers := dictErase seq t.timers },
       []) := by
  unfold retransmit_packet
  split
  · rename_i hnone
    rw [h] at hnone
    exact Option.noConfusion hnone
  · rename_i q hq
    rw [h] at hq
    injection hq with hpq
    subst hpq
    rw [if_neg hr]

/-- How many retransmissions a pending entry can still emit. -/
def retryBudget (t : ReliableTransport) (seq : Nat) : Nat :=
  match dictGet? seq t.pendingPackets with
  | none => 0
  | some p => MAX_RETRIES - p.retryCount

theorem retransmitCalls_le_budget (n : Nat) :
    ∀ (t : ReliableTransport) (seq : Nat),
      (retransmitCalls t seq n).2 ≤ retryBudget t seq := by
  induction n with
  | zero => intro t seq; exact Nat.zero_le _
  | succ k ih =>
    intro t seq
    show (retransmit_packet t seq).2.length +
      (retransmitCalls (retransmit_packet t seq).1 seq k).2 ≤ retryBudget t seq
    cases hget : dictGet? seq t.pendingPackets with
    | none =>
      rw [retransmit_packet_eq_none t seq hget]
      have hb : retryBudget t seq = 0 := by simp [retryBudget, hget]
      have ihb := ih t seq
      rw [hb] at ihb ⊢
      simpa using ihb
    | some p =>
      have hb : retryBudget t seq = MAX_RETRIES - p.retryCount := by
        simp [retryBudget, hget]
      by_cases hr : p.retryCount + 1 ≤ MAX_RETRIES
      · rw [retransmit_packet_eq_retry t seq p hget hr, hb]
        have ihb := ih
          { t with
              pendingPackets :=
                dictInsert seq { p with retryCount := p.retryCount + 1 }
                  t.pendingPackets,
              stats :=
                { t.stats with retransmissions := t.stats.retransmissions + 1 },
              timers := timerReset seq t.timers } seq
        rw [show retryBudget
            { t with
                pendingPackets :=
                  dictInsert seq { p with retryCount := p.retryCount + 1 }
                    t.pendingPackets,
                stats :=
                  { t.stats with retransmissions := t.stats.retransmissions + 1 },
                timers := timerReset seq t.timers } seq =
            MAX_RETRIES - (p.retryCount + 1) from by
          simp [retryBudget, dictGet?_dictInsert_self]] at ihb
        simp only [List.length_cons, List.length_nil] at ihb ⊢
        omega
      · rw [retransmit_packet_eq_drop t seq p hget hr, hb]
        have ihb := ih
          { t with
              pendingPackets := dictErase seq t.pendingPackets,
              timers := dictErase seq t.timers } seq
        rw [show retryBudget
            { t with
                pendingPackets := dictErase seq t.pendingPackets,
                timers := dictErase seq t.timers } seq = 0 from by
          simp [retryBudget, dictGet?_dictErase_self]] at ihb
        simp only [List.length_nil] at ihb ⊢
        omega

/-- C5: `_retransmit_packet(seq)` is a no-op when `seq` is not pending;
otherwise it bumps the retry counter, and while the new value is at most
`MAX_RETRIES = 3` it re-emits the stored DATA message, resets the timer
and bumps the retransmission counter, else it silently drops the pending
entry and its timer; consequently an entry created with retry count 0 is
re-emitted at most 3 times over any number of retransmission attempts. -/
theorem retransmit_spec :
    (∀ (t : ReliableTransport) (seq : Nat),
      dictContains seq t.pendingPackets = false →
      retransmit_packet t seq = (t, [])) ∧
    (∀ (t : ReliableTransport) (seq : Nat) (p : PendingPacket),
      dictGet? seq t.pendingPackets = some p →
      (p.retryCount + 1 ≤ MAX_RETRIES →
        (retransmit_packet t seq).2 = [p.message] ∧
        dictGet? seq (retransmit_packet t seq).1.pendingPackets =
          some ⟨p.message, p.retryCount + 1⟩ ∧
        (retransmit_packet t seq).1.timers = timerReset seq t.timers ∧
        (retransmit_packet t seq).1.stats.retransmissions =
          t.stats.retransmissions + 1) ∧
      (¬ p.retryCount + 1 ≤ MAX_RETRIES →
        (retransmit_packet t seq).2 = [] ∧
        dictContains seq (retransmit_packet t seq).1.pendingPackets = false ∧
        dictContains seq (retransmit_packet t seq).1.timers = false)) ∧
    (∀ (t : ReliableTransport) (seq : Nat) (p : PendingPacket) (n : Nat),
      dictGet? seq t.pendingPackets = some p → p.retryCount = 0 →
      (retransmitCalls t seq n).2 ≤ MAX_RETRIES) := by
  refine ⟨?_, ?_, ?_⟩
  · intro t seq hc
    have hn : dictGet? seq t.pendingPackets = none := by
      have := dictContains_eq_isSome_dictGet? seq t.pendingPackets
      rw [hc] at this
      exact Option.not_isSome_iff_eq_none.mp (by simp [← this])
    exact retransmit_packet_eq_none t seq hn
  · intro t seq p hget
    constructor
    · intro hr
      rw [retransmit_packet_eq_retry t seq p hget hr]
      exact ⟨rfl, dictGet?_dictInsert_self _ _ _, rfl, rfl⟩
    · intro hr
      rw [retransmit_packet_eq_drop t seq p hget hr]
      exact ⟨rfl, dictContains_dictErase_self _ _, dictContains_dictErase_self _ _⟩
  · intro t seq p n hget hzero
    have := retransmitCalls_le_budget n t seq
    rw [show retryBudget t seq = MAX_RETRIES from by
      simp [retryBudget, hget, hzero]] at this
    exact this

theorem retransmit_spec_witness :
    retransmit_packet (ReliableTransport.init .GO_BACK_N 5) 3 =
      (ReliableTransport.init .GO_BACK_N 5, []) ∧
    (retransmit_packet ⟨.GO_BACK_N, 5, 1, 0, 0, 4,
        [(0, ⟨DataMessage 0 "Hell" 7 false, 0⟩)], [], [(0, ⟨true, 0⟩)],
        ⟨1, 0, 0, 0, 0⟩⟩ 0).2 = [DataMessage 0 "Hell" 7 false] ∧
    (retransmit_packet ⟨.GO_BACK_N, 5, 1, 0, 0, 4,
        [(0, ⟨DataMessage 0 "Hell" 7 false, 3⟩)], [], [(0, ⟨true, 0⟩)],
        ⟨1, 0, 0, 0, 0⟩⟩ 0).2 = [] ∧
    (retransmitCalls ⟨.GO_BACK_N, 5, 1, 0, 0, 4,
        [(0, ⟨DataMessage 0 "Hell" 7 false, 0⟩)], [], [(0, ⟨true, 0⟩)],
        ⟨1, 0, 0, 0, 0⟩⟩ 0 9).2 ≤ MAX_RETRIES :=
  ⟨retransmit_spec.1 (ReliableTransport.init .GO_BACK_N 5) 3 (by decide),
   ((retransmit_spec.2.1 _ 0 ⟨DataMessage 0 "Hell" 7 false, 0⟩ (by decide)).1
      (by decide)).1,
   ((retransmit_spec.2.1 _ 0 ⟨DataMessage 0 "Hell" 7 false, 3⟩ (by decide)).2
      (by decide)).1,
   retransmit_spec.2.2 _ 0 ⟨DataMessage 0 "Hell" 7 false, 0⟩ 9 (by decide) rfl⟩

/-! ## Claim C8 — the checksum -/

theorem hexCharVal_hexDigitChar (n : Nat) (h : n < 16) :
    hexCharVal (hexDigitChar n) = n := by
  interval_cases n <;> decide

theorem parseHex_take8 (b0 b1 b2 b3 : Nat) (rest : List Nat)
    (h0 : b0 < 256) (h1 : b1 < 256) (h2 : b2 < 256) (h3 : b3 < 256) :
    parseHex ((hexOfBytes (b0 :: b1 :: b2 :: b3 :: rest)).take 8) =
      ((b0 * 256 + b1) * 256 + b2) * 256 + b3 := by
  have hhex : hexOfBytes (b0 :: b1 :: b2 :: b3 :: rest) =
      [hexDigitChar (b0 / 16), hexDigitChar (b0 % 16),
       hexDigitChar (b1 / 16), hexDigitChar (b1 % 16),
       hexDigitChar (b2 / 16), hexDigitChar (b2 % 16),
       hexDigitChar (b3 / 16), hexDigitChar (b3 % 16)] ++ hexOfBytes rest := by
    simp [hexOfBytes, byteHex]
  rw [hhex]
  rw [show (8 : Nat) =
      ([hexDigitChar (b0 / 16), hexDigitChar (b0 % 16),
        hexDigitChar (b1 / 16), hexDigitChar (b1 % 16),
        hexDigitChar (b2 / 16), hexDigitChar (b2 % 16),
        hexDigitChar (b3 / 16), hexDigitChar (b3 % 16)]).length from rfl,
    List.take_left]
  simp only [parseHex, List.foldl]
  rw [hexCharVal_hexDigitChar (b0 / 16) (by omega),
    hexCharVal_hexDigitChar (b0 % 16) (by omega),
    hexCharVal_hexDigitChar (b1 / 16) (by omega),
    hexCharVal_hexDigitChar (b1 % 16) (by omega),
    hexCharVal_hexDigitChar (b2 / 16) (by omega),
    hexCharVal_hexDigitChar (b2 % 16) (by omega),
    hexCharVal_hexDigitChar (b3 / 16) (by omega),
    hexCharVal_hexDigitChar (b3 % 16) (by omega)]
  omega

set_option maxRecDepth 100000 in
/-- C8: `calculate_checksum` equals the big-endian value of the first four
MD5-digest bytes (the "high 32 bits", i.e. the first 8 hex characters of
the hexdigest parsed base 16), except that empty input yields 0; and
`verify_checksum(data, expected)` is true exactly when
`calculate_checksum data = expected`.  The last conjunct cross-checks the
MD5 model against the RFC 1321 test vector `md5("abc") = 900150…`. -/
theorem checksum_matches_md5_high32 :
    (∀ data, calculate_checksum data = checksumHigh32 data) ∧
    calculate_checksum "" = 0 ∧
    (∀ data expected,
      verify_checksum data expected = true ↔ calculate_checksum data = expected) ∧
    calculate_checksum "abc" = 2416005272 := by
  refine ⟨?_, rfl, ?_, by decide⟩
  · intro data
    unfold calculate_checksum checksumHigh32
    by_cases h : data.data = []
    · rw [if_pos h, if_pos h]
    · rw [if_neg h, if_neg h]
      unfold md5Digest
      rw [show leBytes (md5State (strBytes data)).1 ++
            leBytes (md5State (strBytes data)).2.1 ++
            leBytes (md5State (strBytes data)).2.2.1 ++
            leBytes (md5State (strBytes data)).2.2.2 =
          (md5State (strBytes data)).1 % 256 ::
            (md5State (strBytes data)).1 / 256 % 256 ::
            (md5State (strBytes data)).1 / 65536 % 256 ::
            (md5State (strBytes data)).1 / 16777216 % 256 ::
            (leBytes (md5State (strBytes data)).2.1 ++
              leBytes (md5State (strBytes data)).2.2.1 ++
              leBytes (md5State (strBytes data)).2.2.2) from by
        simp [leBytes]]
      rw [parseHex_take8 _ _ _ _ _
        (Nat.mod_lt _ (by norm_num)) (Nat.mod_lt _ (by norm_num))
        (Nat.mod_lt _ (by norm_num)) (Nat.mod_lt _ (by norm_num))]
  · intro data expected
    simp [verify_checksum]

/-! ## Claim C9 — `split_message` -/

theorem splitChunks_join (capPred : Nat) :
    ∀ (fuel : Nat) (l : List Char), l.length ≤ fuel →
      (splitChunks capPred fuel l).flatten = l := by
  intro fuel
  induction fuel with
  | zero =>
    intro l h
    have : l = [] := List.length_eq_zero.mp (Nat.le_zero.mp h)
    simp [splitChunks, this]
  | succ k ih =>
    intro l h
    cases l with
    | nil => simp [splitChunks]
    | cons c cs =>
      simp only [splitChunks, List.flatten_cons]
      rw [ih ((c :: cs).drop (capPred + 1)) (by
        rw [List.length_drop]
        simp only [List.length_cons] at h ⊢
        omega)]
      exact List.take_append_drop _ _

theorem splitChunks_mem (capPred : Nat) :
    ∀ (fuel : Nat) (l chunk : List Char),
      chunk ∈ splitChunks capPred fuel l →
      chunk ≠ [] ∧ chunk.length ≤ capPred + 1 := by
  intro fuel
  induction fuel with
  | zero => intro l chunk h; simp [splitChunks] at h
  | succ k ih =>
    intro l chunk h
    cases l with
    | nil => simp [splitChunks] at h
    | cons c cs =>
      simp only [splitChunks, List.mem_cons] at h
      rcases h with h | h
      · subst h
        refine ⟨by simp, ?_⟩
        rw [List.length_take]
        omega
      · exact ih _ _ h

/-- Concatenation of a list of strings, in order. -/
def joinStrings : List String → String
  | [] => ""
  | s :: rest => s ++ joinStrings rest

theorem joinStrings_map_mk (ls : List (List Char)) :
    joinStrings (ls.map (fun l => String.mk l)) = String.mk ls.flatten := by
  induction ls with
  | nil => rfl
  | cons a as ih =>
    show String.mk a ++ joinStrings (as.map (fun l => String.mk l)) = _
    rw [ih]
    rfl

/-- C9: for every message and slice size at least 1, `split_message`
returns slices that are non-empty, at most `cap` characters long, and
concatenate back to the message, with the empty message yielding the empty
list; and the 34-character demo message splits at size 4 into exactly the
nine expected packets. -/
theorem split_message_spec :
    (∀ (message : String) (cap : Nat), 1 ≤ cap →
      ∃ packets, split_message message cap = some packets ∧
        (∀ s ∈ packets, s ≠ "" ∧ s.length ≤ cap) ∧
        joinStrings packets = message ∧
        (message = "" → packets = [])) ∧
    split_message "Hello, this is a reliability demo!" 4 =
      some ["Hell", "o, t", "his ", "is a", " rel", "iabi", "lity", " dem", "o!"] := by
  constructor
  · intro message cap hcap
    by_cases h : message.data = []
    · refine ⟨[], by simp [split_message, h], by simp, ?_, fun _ => rfl⟩
      obtain ⟨d⟩ := message
      simp only at h
      subst h
      rfl
    · have hc0 : cap ≠ 0 := by omega
      refine ⟨(splitChunks (cap - 1) message.data.length message.data).map
        (fun l => String.mk l), ?_, ?_, ?_, ?_⟩
      · unfold split_message
        rw [if_neg h, if_neg hc0]
      · intro s hs
        simp only [List.mem_map] at hs
        obtain ⟨chunk, hchunk, rfl⟩ := hs
        have hprops := splitChunks_mem (cap - 1) message.data.length
          message.data chunk hchunk
        refine ⟨?_, ?_⟩
        · intro hcon
          apply hprops.1
          have := congrArg String.data hcon
          simpa using this
        · show chunk.length ≤ cap
          have := hprops.2
          omega
      · rw [joinStrings_map_mk, splitChunks_join (cap - 1) _ _ le_rfl]
      · intro hmsg
        subst hmsg
        exact absurd rfl h
  · decide

theorem split_message_spec_witness :
    ∃ packets,
      split_message "Hello, this is a reliability demo!" 4 = some packets ∧
      (∀ s ∈ packets, s ≠ "" ∧ s.length ≤ 4) ∧
      joinStrings packets = "Hello, this is a reliability demo!" ∧
      ("Hello, this is a reliability demo!" = "" → packets = []) :=
  split_message_spec.1 "Hello, this is a reliability demo!" 4 (by decide)

/-! ## Claim C7 — the deterministic error plan -/

theorem clientTransformPacket_plan (sim₀ : ErrorSim) (P : List Nat) (kI : Int)
    (et : Option String) (rp i : Nat) (packet : String) :
    clientTransformPacket (set_deterministic_error_plan sim₀ P kI et) false rp
      i packet =
    if i ∈ P then
      introduce_error_at packet
        (set_deterministic_error_plan sim₀ P kI et).deterministicCharIndex
        (set_deterministic_error_plan sim₀ P kI et).errorType
    else packet := by
  by_cases hi : i ∈ P
  · have hne : P ≠ [] := List.ne_nil_of_mem hi
    simp [clientTransformPacket, set_deterministic_error_plan, hne, hi]
  · simp [clientTransformPacket, set_deterministic_error_plan, hi]

theorem plan_deterministicCharIndex (sim₀ : ErrorSim) (P : List Nat) (k : Nat)
    (et : Option String) :
    (set_deterministic_error_plan sim₀ P (k : Int) et).deterministicCharIndex
      = k := by
  simp only [set_deterministic_error_plan]
  omega

theorem mapWithIndex_plan (sim₀ : ErrorSim) (P : List Nat) (k : Nat)
    (et : Option String) (posOracle : Nat → Nat) :
    ∀ (packets : List String) (start : Nat),
      mapWithIndex (fun i p =>
        clientTransformPacket (set_deterministic_error_plan sim₀ P (k : Int) et)
          false (posOracle i) i p) start packets =
      mapWithIndex (fun i p =>
        if i ∈ P then
          introduce_error_at p k
            (set_deterministic_error_plan sim₀ P (k : Int) et).errorType
        else p) start packets := by
  intro packets
  induction packets with
  | nil => intro start; rfl
  | cons p ps ih =>
    intro start
    simp only [mapWithIndex, ih (start + 1), clientTransformPacket_plan,
      plan_deterministicCharIndex]

/-- C7: once the deterministic plan (packet-index set `P`, character index
`k`) is installed, and with the probabilistic Bernoulli draw not
triggering, exactly the packets whose 0-based index lies in `P` are handed
to `send_data` as `introduce_error_at packet k …` while all others pass
unmodified; and `introduce_error_at` changes the packet at exactly
position `k` (every other character position is preserved, and position
`k` — when in range — holds the strategy's corrupted character). -/
theorem deterministic_error_plan_spec :
    (∀ (sim₀ : ErrorSim) (P : List Nat) (k : Nat) (et : Option String)
        (rp i : Nat) (packet : String),
      (set_deterministic_error_plan sim₀ P (k : Int) et).deterministicCharIndex
        = k ∧
      (i ∈ P →
        clientTransformPacket (set_deterministic_error_plan sim₀ P (k : Int) et)
          false rp i packet =
        introduce_error_at packet k
          (set_deterministic_error_plan sim₀ P (k : Int) et).errorType) ∧
      (i ∉ P →
        clientTransformPacket (set_deterministic_error_plan sim₀ P (k : Int) et)
          false rp i packet = packet)) ∧
    (∀ (sim₀ : ErrorSim) (P : List Nat) (k : Nat) (et : Option String)
        (posOracle : Nat → Nat) (packets : List String),
      clientSendPackets (set_deterministic_error_plan sim₀ P (k : Int) et)
        (fun _ => false) posOracle packets =
      mapWithIndex (fun i p =>
        if i ∈ P then
          introduce_error_at p k
            (set_deterministic_error_plan sim₀ P (k : Int) et).errorType
        else p) 0 packets) ∧
    (∀ (s : String) (idx : Nat) (etype : String),
      (∀ j, j ≠ idx →
        (introduce_error_at s idx etype).data[j]? = s.data[j]?) ∧
      (idx < s.data.length →
        (introduce_error_at s idx etype).data[idx]? =
          some (corruptChar (s.data.getD idx default) etype))) := by
  refine ⟨?_, ?_, ?_⟩
  · intro sim₀ P k et rp i packet
    refine ⟨plan_deterministicCharIndex sim₀ P k et, ?_, ?_⟩
    · intro hi
      rw [clientTransformPacket_plan, if_pos hi, plan_deterministicCharIndex]
    · intro hi
      rw [clientTransformPacket_plan, if_neg hi]
  · intro sim₀ P k et posOracle packets
    exact mapWithIndex_plan sim₀ P k et posOracle packets 0
  · intro s idx etype
    unfold introduce_error_at
    by_cases h : s.data = []
    · rw [if_pos h]
      refine ⟨fun j _ => rfl, fun hlt => ?_⟩
      rw [h] at hlt
      simp at hlt
    · rw [if_neg h]
      refine ⟨?_, ?_⟩
      · intro j hj
        show (s.data.set idx _)[j]? = s.data[j]?
        exact List.getElem?_set_ne (Ne.symm hj)
      · intro hlt
        show (s.data.set idx _)[idx]? = _
        exact List.getElem?_set_self hlt

theorem deterministic_error_plan_spec_witness :
    ((set_deterministic_error_plan ⟨false, "random", [], 0⟩ [0, 3] (0 : Int)
        none).deterministicCharIndex = 0 ∧
     clientTransformPacket (set_deterministic_error_plan
        ⟨false, "random", [], 0⟩ [0, 3] (0 : Int) none) false 0 3 "is a" =
       introduce_error_at "is a" 0
         (set_deterministic_error_plan ⟨false, "random", [], 0⟩ [0, 3] (0 : Int)
           none).errorType ∧
     clientTransformPacket (set_deterministic_error_plan
        ⟨false, "random", [], 0⟩ [0, 3] (0 : Int) none) false 0 1 "o, t" =
       "o, t") ∧
    (introduce_error_at "is a" 0 "random").data[0]? =
      some (corruptChar ("is a".data.getD 0 default) "random") :=
  ⟨⟨(deterministic_error_plan_spec.1 ⟨false, "random", [], 0⟩ [0, 3] 0 none 0 3
      "is a").1,
    (deterministic_error_plan_spec.1 ⟨false, "random", [], 0⟩ [0, 3] 0 none 0 3
      "is a").2.1 (by decide),
    (deterministic_error_plan_spec.1 ⟨false, "random", [], 0⟩ [0, 3] 0 none 0 1
      "o, t").2.2 (by decide)⟩,
   (deterministic_error_plan_spec.2.2 "is a" 0 "random").2 (by decide)⟩

end Redes

